import Mathlib

/-!
Verification of the wind-field helper library of eo4a-sswind-services.

The definitions below are a shallow embedding of the numeric helper
functions of `create_tiff/utils/tools.py` and of the corner ground
control point extraction of `create_tiff/outputs/files.py`.

Floating-point arrays carrying only field accesses, comparisons and
rational arithmetic are embedded as `List ℚ`; the trigonometric
kinematics and circular statistics are embedded over `ℝ`.  A NaN
produced by `np.sqrt` or `np.arcsin` on an out-of-domain argument is
embedded as `Option.none`; the NaN-aware mean `np.nanmean` receives the
list of non-NaN samples and returns `none` exactly when all samples
were NaN (empty list).  Procedures that may mutate a caller argument in
place are additionally embedded as state transformers returning the
post-call contents of each argument together with the returned value.
-/

namespace EO4A

/-- Bounding box, embedding the `coords` array
`[lon1, lon2, lat1, lat2]` used throughout `tools.py`. -/
structure Box where
  lon1 : ℚ
  lon2 : ℚ
  lat1 : ℚ
  lat2 : ℚ

/-- Elementwise action of `longitude_fix` (tools.py lines 15-26): the
update `lon[indl] = lon[indl]-360` applies exactly to elements
strictly greater than 180 and leaves the rest unchanged. -/
def longitude_fix_elem (x : ℚ) : ℚ := if 180 < x then x - 360 else x

/-- Value-level embedding of `longitude_fix` on a whole array. -/
def longitude_fix (lon : List ℚ) : List ℚ := lon.map longitude_fix_elem

/-- State-transformer embedding of the procedure `longitude_fix`: the
function assigns into `lon` through the fancy index `indl` (an in-place
mutation of the caller array) and its `return;` yields Python `None`,
embedded as `Option.none`. The first component is the post-call
contents of the caller array `lon`. -/
def longitude_fixP (lon : List ℚ) : List ℚ × Option (List ℚ) :=
  (lon.map longitude_fix_elem, none)

/-- Pointwise closed-box membership test
`(lon>=coords[0]) & (lon<=coords[1]) & (lat>=coords[2]) & (lat<=coords[3])`
of the region-selection functions. -/
def in_box (coords : Box) (p : ℚ × ℚ) : Bool :=
  decide (coords.lon1 ≤ p.1) && decide (p.1 ≤ coords.lon2) &&
  decide (coords.lat1 ≤ p.2) && decide (p.2 ≤ coords.lat2)

/-- Cell mask of `collect_region_wspdwdir` and `collect_region_wspd`
(tools.py lines 217 and 244): the single boolean mask obtained by
applying the box test to every `(lon, lat)` cell. -/
def region_mask (lon lat : List ℚ) (coords : Box) : List Bool :=
  (lon.zip lat).map (in_box coords)

/-- Fancy indexing `xs[ind]` with `ind = np.where(mask)`: keep, in
order, the entries of `xs` at the positions where `mask` is true. -/
def maskSelect (mask : List Bool) (xs : List ℚ) : List ℚ :=
  ((mask.zip xs).filter fun p => p.1).map fun p => p.2

/-- Embedding of `collect_region_wspdwdir` (tools.py lines 191-220):
both fields are selected with the one mask computed from `lon`, `lat`
and `coords`; `np.append` onto the initial empty list is the identity
on the selected values. -/
def collect_region_wspdwdir (lon lat wspd wdir : List ℚ) (coords : Box) :
    List ℚ × List ℚ :=
  (maskSelect (region_mask lon lat coords) wspd,
   maskSelect (region_mask lon lat coords) wdir)

/-- Embedding of `collect_region_wspd` (tools.py lines 223-246). -/
def collect_region_wspd (lon lat wspd : List ℚ) (coords : Box) : List ℚ :=
  maskSelect (region_mask lon lat coords) wspd

/-- Embedding of `buoy_within` (tools.py lines 249-277).  The inputs
are the non-NaN position samples, so `np.nanmean` is their arithmetic
mean.  The four comparisons are exactly those of line 273 of the
source, whose last conjunct tests `lonb <= coords[3]` (the mean
longitude against the upper latitude bound). -/
def buoy_within (lon lat : List ℚ) (coords : Box) : Bool :=
  let lonb := lon.sum / lon.length
  let latb := lat.sum / lat.length
  decide (coords.lon1 ≤ lonb) && decide (lonb ≤ coords.lon2) &&
  decide (coords.lat1 ≤ latb) && decide (lonb ≤ coords.lat2)

/-- Containment predicate described by the spec for `point_in_box`:
the NaN-ignoring mean longitude lies in `[lon1, lon2]` and the
NaN-ignoring mean latitude lies in `[lat1, lat2]`. -/
def point_in_box_spec (lon lat : List ℚ) (coords : Box) : Prop :=
  coords.lon1 ≤ lon.sum / lon.length ∧ lon.sum / lon.length ≤ coords.lon2 ∧
  coords.lat1 ≤ lat.sum / lat.length ∧ lat.sum / lat.length ≤ coords.lat2

instance (lon lat : List ℚ) (coords : Box) :
    Decidable (point_in_box_spec lon lat coords) := by
  unfold point_in_box_spec; infer_instance

/-! Calendar arithmetic.  `dt.datetime(year, month, day)` plus a
`dt.timedelta` is proleptic-Gregorian calendar arithmetic; we embed a
calendar timestamp at second resolution through the standard
civil-from-days and days-from-civil conversions (days counted from the
Unix epoch 1970-01-01). -/

/-- Day number (days since 1970-01-01) of a civil date `y-m-d`. -/
def daysFromCivil (y : ℤ) (m d : ℕ) : ℤ :=
  let ya := if m ≤ 2 then y - 1 else y
  let era := ya.fdiv 400
  let yoe : ℕ := (ya - era * 400).toNat
  let mp : ℕ := if 2 < m then m - 3 else m + 9
  let doy : ℕ := (153 * mp + 2) / 5 + d - 1
  let doe : ℕ := yoe * 365 + yoe / 4 - yoe / 100 + doy
  era * 146097 + (doe : ℤ) - 719468

/-- Civil date `(y, m, d)` of a day number (days since 1970-01-01). -/
def civilFromDays (z : ℤ) : ℤ × ℕ × ℕ :=
  let era := (z + 719468).fdiv 146097
  let doe : ℕ := (z + 719468 - era * 146097).toNat
  let yoe : ℕ := (doe - doe / 1460 + doe / 36524 - doe / 146096) / 365
  let doy : ℕ := doe - (365 * yoe + yoe / 4 - yoe / 100)
  let mp : ℕ := (5 * doy + 2) / 153
  let d : ℕ := doy - (153 * mp + 2) / 5 + 1
  let m : ℕ := if mp < 10 then mp + 3 else mp - 9
  ((yoe : ℤ) + era * 400 + (if m ≤ 2 then 1 else 0), m, d)

/-- Calendar timestamp at second resolution, the embedding of a
`numpy.datetime64[s]` value. -/
structure DateTime where
  year : ℤ
  month : ℕ
  day : ℕ
  hour : ℕ
  minute : ℕ
  second : ℕ
deriving DecidableEq

/-- Timestamp of an epoch-second count (seconds since
1970-01-01T00:00:00). -/
def dtOfEpoch (e : ℤ) : DateTime :=
  let days := e.fdiv 86400
  let sod : ℕ := (e - 86400 * days).toNat
  let c := civilFromDays days
  ⟨c.1, c.2.1, c.2.2, sod / 3600, sod % 3600 / 60, sod % 60⟩

/-- Embedding of `time_seconds_to_datetime64` (tools.py lines 139-165)
for integral-second inputs: each sample is mapped to
`date0 + dt.timedelta(days=t[i]/86400)`, i.e. the reference date plus
the elapsed seconds.  The source performs no validation of `t`. -/
def time_seconds_to_datetime64 (t : List ℤ) (year : ℤ) (month day : ℕ) :
    List DateTime :=
  t.map fun s => dtOfEpoch (86400 * daysFromCivil year month day + s)

/-- Modelled from the spec: the variant of `seconds_to_datetime`
described in the specification, which fails with `InvalidInputError`
when `t` contains a negative (or non-finite, not representable here)
value and otherwise returns `reference_date + elapsed_seconds` per
sample.  No such validation exists anywhere in the source. -/
def time_seconds_to_datetime64_spec (t : List ℤ) (year : ℤ) (month day : ℕ) :
    Except String (List DateTime) :=
  if t.any fun s => decide (s < 0) then Except.error "InvalidInputError"
  else Except.ok (t.map fun s => dtOfEpoch (86400 * daysFromCivil year month day + s))

/-! String rendering of timestamps.  `str()` of a `datetime64[s]`
value is the ISO string `YYYY-MM-DDTHH:MM:SS`; `time_datetime64_to_string`
splits it on the character `-`, splits the last piece on `:` and
concatenates five of the pieces.  Strings are embedded as `List Char`. -/

/-- Decimal digit character. -/
def digitChar (n : ℕ) : Char := Char.ofNat (48 + n)

/-- Two-digit zero-padded decimal rendering. -/
def pad2 (n : ℕ) : List Char := [digitChar (n / 10 % 10), digitChar (n % 10)]

/-- Four-digit zero-padded decimal rendering. -/
def pad4 (n : ℕ) : List Char :=
  [digitChar (n / 1000 % 10), digitChar (n / 100 % 10),
   digitChar (n / 10 % 10), digitChar (n % 10)]

/-- ISO rendering `YYYY-MM-DDTHH:MM:SS` of a timestamp, the embedding
of `str()` on a `datetime64[s]` value (for common-era years). -/
def isoChars (d : DateTime) : List Char :=
  pad4 d.year.toNat ++ '-' :: pad2 d.month ++ '-' :: pad2 d.day ++
  'T' :: pad2 d.hour ++ ':' :: pad2 d.minute ++ ':' :: pad2 d.second

/-- Auxiliary accumulator recursion for `splitOnChar`. -/
def splitOnCharAux (c : Char) : List Char → List Char → List (List Char)
  | [], acc => [acc.reverse]
  | x :: xs, acc =>
      if x = c then acc.reverse :: splitOnCharAux c xs []
      else splitOnCharAux c xs (x :: acc)

/-- Embedding of Python `str.split(sep)` for a one-character
separator. -/
def splitOnChar (c : Char) (s : List Char) : List (List Char) :=
  splitOnCharAux c s []

/-- Loop body of `time_datetime64_to_string` (tools.py lines 183-186)
for one timestamp: `d1 = str(dates0[i]).split('-')`,
`d2 = d1[-1].split(':')`, result `d1[0]+d1[1]+d2[0]+d2[1]+d2[2]`. -/
def compact1 (dd : DateTime) : List Char :=
  let d1 := splitOnChar '-' (isoChars dd)
  let d2 := splitOnChar ':' (d1.getLastD [])
  d1.getD 0 [] ++ d1.getD 1 [] ++ d2.getD 0 [] ++ d2.getD 1 [] ++ d2.getD 2 []

/-- Embedding of `time_datetime64_to_string` (tools.py lines 168-187):
the loop body applied to every timestamp. -/
def time_datetime64_to_string (dates0 : List DateTime) : List (List Char) :=
  dates0.map compact1

/-- Ground control point, one `-gcp px py lon lat elev` group of the
`gdal_translate` command built by `nc_to_tiff`. -/
structure GCP where
  px : ℕ
  py : ℕ
  glon : ℚ
  glat : ℚ
  gelev : ℚ
deriving DecidableEq

/-- Embedding of the corner ground control point extraction of
`nc_to_tiff` (files.py lines 165-177): corner coordinates
`x = [lon[-1,0], lon[-1,-1], lon[0,0], lon[0,-1]]` (and `y` likewise
from `lat`), pixel extents `nx = len(lon[0,:])-1`,
`ny = len(lon[:,0])-1`, and the four `-gcp` groups
`(0,0,x[0],y[0],0) (nx,0,x[1],y[1],0) (0,ny,x[2],y[2],0)
(nx,ny,x[3],y[3],0)` in the order they appear in the command. -/
def nc_to_tiff_gcps (lon lat : List (List ℚ)) : List GCP :=
  let x0 := (lon.getLastD []).getD 0 0
  let x1 := (lon.getLastD []).getLastD 0
  let x2 := (lon.getD 0 []).getD 0 0
  let x3 := (lon.getD 0 []).getLastD 0
  let y0 := (lat.getLastD []).getD 0 0
  let y1 := (lat.getLastD []).getLastD 0
  let y2 := (lat.getD 0 []).getD 0 0
  let y3 := (lat.getD 0 []).getLastD 0
  let nx := (lon.getD 0 []).length - 1
  let ny := lon.length - 1
  [⟨0, 0, x0, y0, 0⟩, ⟨nx, 0, x1, y1, 0⟩, ⟨0, ny, x2, y2, 0⟩, ⟨nx, ny, x3, y3, 0⟩]

/-! Wind kinematics and circular statistics, embedded over `ℝ`. -/

/-- Embedding of `wind_components` (tools.py lines 49-71):
`u = wspd*sin(wdir*pi/180)*(-1)`, `v = wspd*cos(wdir*pi/180)*(-1)`. -/
noncomputable def wind_components (wspd wdir : ℝ) : ℝ × ℝ :=
  (wspd * Real.sin (wdir * Real.pi / 180) * (-1),
   wspd * Real.cos (wdir * Real.pi / 180) * (-1))

/-- Embedding of `np.arctan2(y, x)`: the argument of the complex
number `x + y*I`, in `(-pi, pi]`. -/
noncomputable def arctan2 (y x : ℝ) : ℝ := Complex.arg (x + y * Complex.I)

/-- Embedding of `wind_direction_from_uv` (tools.py lines 74-103):
`wdir = 270 - arctan2(v, u)*(180/pi)`, then 360 is subtracted from
every entry that is `>= 360`. -/
noncomputable def wind_direction_from_uv (u v : ℝ) : ℝ :=
  let wdir := 270 - arctan2 v u * (180 / Real.pi)
  if 360 ≤ wdir then wdir - 360 else wdir

/-- Embedding of `np.nanmean` along the last axis: the argument is the
list of non-NaN samples; the mean is `none` (NaN) exactly when every
sample was NaN, i.e. when the list is empty. -/
noncomputable def nanmean (l : List ℝ) : Option ℝ :=
  if l.length = 0 then none else some (l.sum / l.length)

/-- Embedding of `np.sqrt` with IEEE NaN semantics: a negative
argument yields NaN, embedded as `none`. -/
noncomputable def nsqrt (x : ℝ) : Option ℝ :=
  if x < 0 then none else some (Real.sqrt x)

/-- Embedding of `np.arcsin` with IEEE NaN semantics: an argument
outside `[-1, 1]` yields NaN, embedded as `none`. -/
noncomputable def narcsin (x : ℝ) : Option ℝ :=
  if x < -1 ∨ 1 < x then none else some (Real.arcsin x)

/-- Epsilon stage of `wind_direction_std` exactly as in the source
(tools.py line 132): `eps = np.sqrt(1-np.power(sa,2)-np.power(ca,2))`,
with no clamping of the radicand. -/
noncomputable def wds_eps (sa ca : ℝ) : Option ℝ := nsqrt (1 - sa ^ 2 - ca ^ 2)

/-- Modelled from the spec: the epsilon stage as the specification
describes it, `epsilon = sqrt(max(0, 1 - sin_mean^2 - cos_mean^2))`,
clamping the radicand at 0 before the square root. -/
noncomputable def wds_eps_clamped (sa ca : ℝ) : Option ℝ :=
  nsqrt (max 0 (1 - sa ^ 2 - ca ^ 2))

/-- Embedding of `wind_direction_std` (tools.py lines 106-135) along
the last axis for one row of samples (against the list of its non-NaN
members): means of sin and cos, the unclamped epsilon stage, then
`arcsin(eps)*(1+0.1547*eps^3)`. -/
noncomputable def wind_direction_std (wdir : List ℝ) : Option ℝ :=
  match nanmean (wdir.map fun d => Real.sin (d * (Real.pi / 180))),
        nanmean (wdir.map fun d => Real.cos (d * (Real.pi / 180))) with
  | some sa, some ca =>
    match wds_eps sa ca with
    | some eps =>
      match narcsin eps with
      | some a => some (a * (1 + 0.1547 * eps ^ 3))
      | none => none
    | none => none
  | _, _ => none

/-! State-transformer embeddings recording, for each helper, the
post-call contents of every caller-supplied array next to the returned
value.  In the source, `wind_components`, `wind_direction_from_uv`,
`wind_direction_std`, `collect_region_wspdwdir` and `buoy_within`
only ever assign into freshly allocated local arrays (the in-place
update `wdir[ind360] -= 360` of `wind_direction_from_uv` targets the
local array created on its line 98), so their argument post-states
equal the inputs; `longitude_fix` assigns into its argument. -/

/-- State-transformer embedding of `wind_components`: both arguments
are left unchanged and the two freshly allocated component arrays are
returned. -/
noncomputable def wind_componentsP (wspd wdir : List ℝ) :
    (List ℝ × List ℝ) × (List ℝ × List ℝ) :=
  ((wspd, wdir),
   ((wspd.zip wdir).map fun p => (wind_components p.1 p.2).1,
    (wspd.zip wdir).map fun p => (wind_components p.1 p.2).2))

/-- State-transformer embedding of `wind_direction_from_uv`. -/
noncomputable def wind_direction_from_uvP (u v : List ℝ) :
    (List ℝ × List ℝ) × List ℝ :=
  ((u, v), (u.zip v).map fun p => wind_direction_from_uv p.1 p.2)

/-- State-transformer embedding of `wind_direction_std` on one row. -/
noncomputable def wind_direction_stdP (wdir : List ℝ) :
    List ℝ × Option ℝ :=
  (wdir, wind_direction_std wdir)

/-- State-transformer embedding of `collect_region_wspdwdir`. -/
def collect_region_wspdwdirP (lon lat wspd wdir : List ℚ) (coords : Box) :
    (List ℚ × List ℚ × List ℚ × List ℚ) × (List ℚ × List ℚ) :=
  ((lon, lat, wspd, wdir), collect_region_wspdwdir lon lat wspd wdir coords)

/-- State-transformer embedding of `buoy_within`. -/
def buoy_withinP (lon lat : List ℚ) (coords : Box) :
    (List ℚ × List ℚ) × Bool :=
  ((lon, lat), buoy_within lon lat coords)

/-! Helper lemmas. -/

/-- A list indexed from its far end: `getLastD` is `getD` at position
`length - 1`. -/
theorem getLastD_eq_getD {α : Type} (l : List α) (d : α) :
    l.getLastD d = l.getD (l.length - 1) d := by
  induction l generalizing d with
  | nil => rfl
  | cons x xs ih =>
      cases xs with
      | nil => rfl
      | cons y ys =>
          rw [List.getLastD_cons, ih x]
          have hlt : ys.length < (y :: ys).length := by simp
          simp [List.getElem?_eq_getElem hlt]

/-- Elementwise behaviour of `longitude_fix` on the domain
`(-180, 540]`: one application is already normalized, so a second one
changes nothing, and the result lies in `(-180, 180]`. -/
theorem longitude_fix_elem_spec (x : ℚ) (h1 : -180 < x) (h2 : x ≤ 540) :
    longitude_fix_elem (longitude_fix_elem x) = longitude_fix_elem x ∧
    -180 < longitude_fix_elem x ∧ longitude_fix_elem x ≤ 180 := by
  unfold longitude_fix_elem
  split_ifs <;> refine ⟨by linarith, by linarith, by linarith⟩

/-- C1: at longitude samples `[0]`, latitude samples `[10]` and box
`(-1, 1, 5, 8)` the mean position `(0, 10)` has latitude outside
`[5, 8]`, so the claimed containment test is false, yet `buoy_within`
returns `true`: line 273 of tools.py tests `lonb <= coords[3]`, the
mean longitude against the upper latitude bound, instead of
`latb <= coords[3]`, contradicting the function docstring "True if
buoy is within ROI". -/
theorem buoy_within_latitude_bound_bug :
    buoy_within [0] [10] ⟨-1, 1, 5, 8⟩ = true ∧
    ¬ point_in_box_spec [0] [10] ⟨-1, 1, 5, 8⟩ := by
  constructor
  · norm_num [buoy_within]
  · norm_num [point_in_box_spec]

/-- C4 counterexample: at input `[700]` the claimed idempotence and
range both fail: one application of `longitude_fix` gives `[340]`
(outside `(-180, 180]`), a second application gives `[-20]`. -/
theorem longitude_fix_not_idempotent :
    longitude_fix (longitude_fix [700]) ≠ longitude_fix [700] ∧
    ¬ (∀ x ∈ longitude_fix [700], -180 < x ∧ x ≤ 180) := by
  have h1 : longitude_fix [700] = [340] := by
    norm_num [longitude_fix, longitude_fix_elem]
  have h2 : longitude_fix [340] = [-20] := by
    norm_num [longitude_fix, longitude_fix_elem]
  constructor
  · rw [h1, h2]
    simp only [ne_eq, List.cons.injEq]
    norm_num
  · rw [h1]
    intro h
    have := (h 340 (by simp)).2
    linarith

/-- C4 amended: on arrays whose elements lie in `(-180, 540]` (in
particular on the documented domain `[0, 360]`), `longitude_fix` is
idempotent and every element of the result lies in `(-180, 180]`. -/
theorem longitude_fix_idempotent_on_domain (lon : List ℚ)
    (h : ∀ x ∈ lon, -180 < x ∧ x ≤ 540) :
    longitude_fix (longitude_fix lon) = longitude_fix lon ∧
    ∀ y ∈ longitude_fix lon, -180 < y ∧ y ≤ 180 := by
  constructor
  · unfold longitude_fix
    rw [List.map_map]
    apply List.map_congr_left
    intro x hx
    exact (longitude_fix_elem_spec x (h x hx).1 (h x hx).2).1
  · intro y hy
    unfold longitude_fix at hy
    obtain ⟨x, hx, rfl⟩ := List.mem_map.mp hy
    exact (longitude_fix_elem_spec x (h x hx).1 (h x hx).2).2

/-- C4 witness: the amended statement at the concrete array
`[200, 50]`. -/
theorem longitude_fix_idempotent_on_domain_witness :
    longitude_fix (longitude_fix [200, 50]) = longitude_fix [200, 50] ∧
    ∀ y ∈ longitude_fix [200, 50], -180 < y ∧ y ≤ 180 :=
  longitude_fix_idempotent_on_domain [200, 50] (by decide)

/-- C5 counterexample: at the negative elapsed-seconds array
`[-86400]` the validating function described by the spec fails with
`InvalidInputError`, but `time_seconds_to_datetime64` as written
performs no validation and returns the timestamp one day before the
reference date. -/
theorem time_seconds_no_validation :
    time_seconds_to_datetime64_spec [-86400] 2020 1 1 =
      Except.error "InvalidInputError" ∧
    time_seconds_to_datetime64 [-86400] 2020 1 1 = [⟨2019, 12, 31, 0, 0, 0⟩] :=
  ⟨rfl, by decide⟩

/-- C5 amended: `time_seconds_to_datetime64` never fails: for every
elapsed-seconds array, also one containing negative values, it returns
one timestamp per sample equal to the reference date plus the elapsed
seconds at second resolution. -/
theorem time_seconds_total (t : List ℤ) (year : ℤ) (month day : ℕ) :
    (time_seconds_to_datetime64 t year month day).length = t.length ∧
    ∀ i, i < t.length →
      (time_seconds_to_datetime64 t year month day).getD i ⟨0, 0, 0, 0, 0, 0⟩ =
        dtOfEpoch (86400 * daysFromCivil year month day + t.getD i 0) := by
  constructor
  · simp [time_seconds_to_datetime64]
  · intro i hi
    simp [time_seconds_to_datetime64, List.getD_eq_getElem?_getD,
      List.getElem?_eq_getElem (by simpa using hi :
        i < (t.map fun s => dtOfEpoch (86400 * daysFromCivil year month day + s)).length),
      List.getElem?_eq_getElem hi]

/-- C5 witness: the amended statement at the concrete array `[0, -5]`
with reference date 2020-01-01, at sample index 1. -/
theorem time_seconds_total_witness :
    (time_seconds_to_datetime64 [0, -5] 2020 1 1).getD 1 ⟨0, 0, 0, 0, 0, 0⟩ =
      dtOfEpoch (86400 * daysFromCivil 2020 1 1 + List.getD [0, -5] 1 0) :=
  (time_seconds_total [0, -5] 2020 1 1).2 1 (by decide)

/-- C6 counterexample: `longitude_fix` is not side-effect-free: after
the call with the one-element array `[200]` the caller array holds
`[-160]`, not its original contents. -/
theorem longitude_fix_mutates :
    (longitude_fixP [200]).1 ≠ [200] := by
  norm_num [longitude_fixP, longitude_fix_elem]

/-- C6 amended: the kinematics conversions, the circular statistics
and the box-selection helpers leave every caller-supplied array
unchanged and return freshly created outputs; `longitude_fix` alone
mutates, overwriting its argument elementwise with the normalized
values and returning `None`. -/
theorem helpers_frame (lon lonq latq wspdq wdirq : List ℚ)
    (u v wspd wdir wd : List ℝ) (coords : Box) :
    (wind_componentsP wspd wdir).1 = (wspd, wdir) ∧
    (wind_direction_from_uvP u v).1 = (u, v) ∧
    (wind_direction_stdP wd).1 = wd ∧
    (collect_region_wspdwdirP lonq latq wspdq wdirq coords).1 =
      (lonq, latq, wspdq, wdirq) ∧
    (buoy_withinP lonq latq coords).1 = (lonq, latq) ∧
    (longitude_fixP lon).1 = lon.map longitude_fix_elem ∧
    (longitude_fixP lon).2 = none :=
  ⟨rfl, rfl, rfl, rfl, rfl, rfl, rfl⟩

/-- C10: for every pair of components `(u, v)` the raw value
`270 - arctan2(v,u)*180/pi` lies in `[90, 450]` (since `arctan2`
ranges over `(-pi, pi]`), and after subtracting 360 from values
`>= 360` the direction returned by `wind_direction_from_uv` lies in
`[0, 360)`; the negative-result edge case never occurs. -/
theorem wind_direction_from_uv_range (u v : ℝ) :
    90 ≤ 270 - arctan2 v u * (180 / Real.pi) ∧
    270 - arctan2 v u * (180 / Real.pi) ≤ 450 ∧
    0 ≤ wind_direction_from_uv u v ∧ wind_direction_from_uv u v < 360 := by
  have hπ : (0:ℝ) < Real.pi := Real.pi_pos
  have hpos : (0:ℝ) < 180 / Real.pi := by positivity
  have h1 : arctan2 v u ≤ Real.pi := Complex.arg_le_pi _
  have h2 : -Real.pi < arctan2 v u := Complex.neg_pi_lt_arg _
  have k1 : arctan2 v u * (180 / Real.pi) ≤ 180 := by
    have h3 := mul_le_mul_of_nonneg_right h1 hpos.le
    have h4 : Real.pi * (180 / Real.pi) = 180 := by field_simp
    linarith
  have k2 : -180 < arctan2 v u * (180 / Real.pi) := by
    have h3 := mul_lt_mul_of_pos_right h2 hpos
    have h4 : -Real.pi * (180 / Real.pi) = -180 := by field_simp; ring
    linarith
  refine ⟨by linarith, by linarith, ?_, ?_⟩ <;>
    · simp only [wind_direction_from_uv]
      split_ifs with hw <;> linarith

/-- C9: for grids with at least one row and `nc > 0` columns, the four
ground control points of `nc_to_tiff` map pixel `(0,0)` to the first
entry of the last geographic row, pixel `(nx,0)` to its last entry,
pixel `(0,ny)` to the first entry of the first row and pixel
`(nx,ny)` to its last entry, where `nx = nc - 1` and
`ny = nrows - 1`, with elevation always 0. -/
theorem nc_to_tiff_corner_gcps (lon lat : List (List ℚ)) (nc : ℕ)
    (hr : 0 < lon.length) (_hc : 0 < nc) (hlat : lat.length = lon.length)
    (hlonr : ∀ r ∈ lon, r.length = nc) (hlatr : ∀ r ∈ lat, r.length = nc) :
    nc_to_tiff_gcps lon lat =
      [⟨0, 0, (lon.getD (lon.length - 1) []).getD 0 0,
              (lat.getD (lat.length - 1) []).getD 0 0, 0⟩,
       ⟨nc - 1, 0, (lon.getD (lon.length - 1) []).getD (nc - 1) 0,
                   (lat.getD (lat.length - 1) []).getD (nc - 1) 0, 0⟩,
       ⟨0, lon.length - 1, (lon.getD 0 []).getD 0 0,
                           (lat.getD 0 []).getD 0 0, 0⟩,
       ⟨nc - 1, lon.length - 1, (lon.getD 0 []).getD (nc - 1) 0,
                                (lat.getD 0 []).getD (nc - 1) 0, 0⟩] ∧
    ∀ g ∈ nc_to_tiff_gcps lon lat, g.gelev = 0 := by
  have hlon0 : (lon.getD 0 []).length = nc := by
    cases lon with
    | nil => simp at hr
    | cons r rs => exact hlonr r (by simp)
  have hlat0 : (lat.getD 0 []).length = nc := by
    cases lat with
    | nil => rw [← hlat] at hr; simp at hr
    | cons r rs => exact hlatr r (by simp)
  have hlonlast : (lon.getD (lon.length - 1) []).length = nc := by
    rw [← getLastD_eq_getD]
    cases lon with
    | nil => simp at hr
    | cons r rs =>
        refine hlonr _ ?_
        rw [List.getLastD_cons]
        exact List.getLastD_mem_cons rs r
  have hlatlast : (lat.getD (lat.length - 1) []).length = nc := by
    rw [← getLastD_eq_getD]
    cases lat with
    | nil => rw [← hlat] at hr; simp at hr
    | cons r rs =>
        refine hlatr _ ?_
        rw [List.getLastD_cons]
        exact List.getLastD_mem_cons rs r
  constructor
  · simp only [nc_to_tiff_gcps]
    rw [getLastD_eq_getD lon [], getLastD_eq_getD lat [],
        getLastD_eq_getD (lon.getD (lon.length - 1) []) 0,
        getLastD_eq_getD (lat.getD (lat.length - 1) []) 0,
        getLastD_eq_getD (lon.getD 0 []) 0,
        getLastD_eq_getD (lat.getD 0 []) 0,
        hlon0, hlat0, hlonlast, hlatlast]
  · intro g hg
    simp only [nc_to_tiff_gcps, List.mem_cons, List.not_mem_nil, or_false] at hg
    rcases hg with rfl | rfl | rfl | rfl <;> rfl

/-- C9 witness: the corner-mapping scenario of the spec, a 2-by-2 grid
with `lon = [[0,1],[0,1]]` and `lat = [[1,1],[0,0]]`. -/
theorem nc_to_tiff_corner_gcps_witness :
    nc_to_tiff_gcps [[0, 1], [0, 1]] [[1, 1], [0, 0]] =
      [⟨0, 0, 0, 0, 0⟩, ⟨1, 0, 1, 0, 0⟩, ⟨0, 1, 0, 1, 0⟩, ⟨1, 1, 1, 1, 0⟩] ∧
    ∀ g ∈ nc_to_tiff_gcps [[0, 1], [0, 1]] [[1, 1], [0, 0]], g.gelev = 0 := by
  have h := nc_to_tiff_corner_gcps [[0, 1], [0, 1]] [[1, 1], [0, 0]] 2
    (by decide) (by decide) (by decide) (by decide) (by decide)
  refine ⟨?_, h.2⟩
  rw [h.1]
  decide

/-! Helper lemmas for the splitting string formatter. -/

/-- Digit characters are never a separator. -/
theorem digitChar_mod_ne_sep (n : ℕ) :
    digitChar (n % 10) ≠ '-' ∧ digitChar (n % 10) ≠ ':' := by
  have h : n % 10 < 10 := Nat.mod_lt _ (by norm_num)
  set m := n % 10 with hm
  interval_cases m <;> decide

/-- No character of a two-digit rendering is a separator. -/
theorem mem_pad2_ne_sep (n : ℕ) : ∀ c ∈ pad2 n, c ≠ '-' ∧ c ≠ ':' := by
  intro c hc
  simp only [pad2, List.mem_cons, List.not_mem_nil, or_false] at hc
  rcases hc with rfl | rfl
  · exact digitChar_mod_ne_sep (n / 10)
  · exact digitChar_mod_ne_sep n

/-- No character of a four-digit rendering is a separator. -/
theorem mem_pad4_ne_sep (n : ℕ) : ∀ c ∈ pad4 n, c ≠ '-' ∧ c ≠ ':' := by
  intro c hc
  simp only [pad4, List.mem_cons, List.not_mem_nil, or_false] at hc
  rcases hc with rfl | rfl | rfl | rfl
  · exact digitChar_mod_ne_sep (n / 1000)
  · exact digitChar_mod_ne_sep (n / 100)
  · exact digitChar_mod_ne_sep (n / 10)
  · exact digitChar_mod_ne_sep n

/-- Splitting a list that starts with a separator-free prefix followed
by the separator yields that prefix (after the pending accumulator)
and continues on the remainder. -/
theorem splitOnCharAux_sep (c : Char) (l rest acc : List Char)
    (h : ∀ x ∈ l, x ≠ c) :
    splitOnCharAux c (l ++ c :: rest) acc =
      (acc.reverse ++ l) :: splitOnCharAux c rest [] := by
  induction l generalizing acc with
  | nil => simp [splitOnCharAux]
  | cons x xs ih =>
      have hx : x ≠ c := h x (by simp)
      have hxs : ∀ y ∈ xs, y ≠ c := fun y hy => h y (List.mem_cons_of_mem x hy)
      simp only [List.cons_append, splitOnCharAux, if_neg hx, List.append_eq]
      rw [ih _ hxs]
      simp

/-- Splitting a separator-free list yields a single piece. -/
theorem splitOnCharAux_no_sep (c : Char) (l acc : List Char)
    (h : ∀ x ∈ l, x ≠ c) :
    splitOnCharAux c l acc = [acc.reverse ++ l] := by
  induction l generalizing acc with
  | nil => simp [splitOnCharAux]
  | cons x xs ih =>
      have hx : x ≠ c := h x (by simp)
      have hxs : ∀ y ∈ xs, y ≠ c := fun y hy => h y (List.mem_cons_of_mem x hy)
      simp only [splitOnCharAux, if_neg hx, List.append_eq]
      rw [ih _ hxs]
      simp

/-- The loop body of `time_datetime64_to_string` reassembles the ISO
pieces into `YYYYMMDD` followed by a literal `T`, `HH`, `MM`, `SS`:
the `T` separator of the ISO rendering survives inside the third piece
of the split on `-`. -/
theorem compact1_format (dd : DateTime) :
    compact1 dd =
      pad4 dd.year.toNat ++ pad2 dd.month ++
        (pad2 dd.day ++ 'T' :: pad2 dd.hour) ++ pad2 dd.minute ++ pad2 dd.second := by
  have hno4 : ∀ x ∈ pad4 dd.year.toNat, x ≠ '-' :=
    fun x hx => (mem_pad4_ne_sep _ x hx).1
  have hnom : ∀ x ∈ pad2 dd.month, x ≠ '-' :=
    fun x hx => (mem_pad2_ne_sep _ x hx).1
  have hnoR : ∀ x ∈ pad2 dd.day ++ 'T' :: (pad2 dd.hour ++
      ':' :: (pad2 dd.minute ++ ':' :: pad2 dd.second)), x ≠ '-' := by
    intro x hx
    simp only [List.mem_append, List.mem_cons, or_assoc] at hx
    rcases hx with h | h | h | h | h | h | h
    · exact (mem_pad2_ne_sep _ x h).1
    · subst h; decide
    · exact (mem_pad2_ne_sep _ x h).1
    · subst h; decide
    · exact (mem_pad2_ne_sep _ x h).1
    · subst h; decide
    · exact (mem_pad2_ne_sep _ x h).1
  have hnod : ∀ x ∈ pad2 dd.day ++ 'T' :: pad2 dd.hour, x ≠ ':' := by
    intro x hx
    simp only [List.mem_append, List.mem_cons, or_assoc] at hx
    rcases hx with h | h | h
    · exact (mem_pad2_ne_sep _ x h).2
    · subst h; decide
    · exact (mem_pad2_ne_sep _ x h).2
  have hnomi : ∀ x ∈ pad2 dd.minute, x ≠ ':' :=
    fun x hx => (mem_pad2_ne_sep _ x hx).2
  have hnos : ∀ x ∈ pad2 dd.second, x ≠ ':' :=
    fun x hx => (mem_pad2_ne_sep _ x hx).2
  have e1 : splitOnChar '-' (isoChars dd) =
      [pad4 dd.year.toNat, pad2 dd.month,
       pad2 dd.day ++ 'T' :: (pad2 dd.hour ++
         ':' :: (pad2 dd.minute ++ ':' :: pad2 dd.second))] := by
    unfold splitOnChar isoChars
    simp only [List.append_assoc, List.cons_append]
    rw [splitOnCharAux_sep _ _ _ _ hno4, splitOnCharAux_sep _ _ _ _ hnom,
        splitOnCharAux_no_sep _ _ _ hnoR]
    simp
  have e2 : splitOnChar ':' (pad2 dd.day ++ 'T' :: (pad2 dd.hour ++
      ':' :: (pad2 dd.minute ++ ':' :: pad2 dd.second))) =
      [pad2 dd.day ++ 'T' :: pad2 dd.hour, pad2 dd.minute, pad2 dd.second] := by
    have eR : pad2 dd.day ++ 'T' :: (pad2 dd.hour ++
        ':' :: (pad2 dd.minute ++ ':' :: pad2 dd.second)) =
        (pad2 dd.day ++ 'T' :: pad2 dd.hour) ++
          ':' :: (pad2 dd.minute ++ ':' :: pad2 dd.second) := by
      simp [List.append_assoc]
    rw [eR]
    unfold splitOnChar
    rw [splitOnCharAux_sep _ _ _ _ hnod, splitOnCharAux_sep _ _ _ _ hnomi,
        splitOnCharAux_no_sep _ _ _ hnos]
    simp
  simp only [compact1]
  rw [e1]
  simp only [List.getLastD_cons, List.getLastD_nil, List.getD_cons_zero,
    List.getD_cons_succ]
  rw [e2]
  simp [List.append_assoc]

/-- Length 15 of every formatted timestamp. -/
theorem compact1_length (dd : DateTime) : (compact1 dd).length = 15 := by
  rw [compact1_format]
  simp [pad4, pad2]

/-- C2 counterexample: composing the formatter after the
seconds-to-timestamp conversion at elapsed seconds `[0]` with
reference date 2020-01-01 does not produce the claimed 14-character
string "20200101000000". -/
theorem compact_string_not_14 :
    (time_datetime64_to_string
        (time_seconds_to_datetime64 [0] 2020 1 1)).getD 0 [] ≠
      "20200101000000".data := by
  decide

/-- C2 amended: the formatter renders each timestamp as the
15-character string `YYYYMMDDTHHMMSS`, keeping the literal `T` between
the date and time fields (its docstring format), and the composition
with `seconds_to_datetime` at `[0]`, reference 2020-01-01, yields
exactly "20200101T000000". -/
theorem time_datetime64_to_string_format (dates0 : List DateTime) :
    time_datetime64_to_string dates0 =
      dates0.map (fun dd => pad4 dd.year.toNat ++ pad2 dd.month ++
        (pad2 dd.day ++ 'T' :: pad2 dd.hour) ++ pad2 dd.minute ++ pad2 dd.second) ∧
    (time_datetime64_to_string dates0).map List.length =
      dates0.map (fun _ => 15) ∧
    time_datetime64_to_string (time_seconds_to_datetime64 [0] 2020 1 1) =
      ["20200101T000000".data] := by
  refine ⟨List.map_congr_left fun dd _ => compact1_format dd, ?_, by decide⟩
  unfold time_datetime64_to_string
  rw [List.map_map]
  exact List.map_congr_left fun dd _ => compact1_length dd

/-! Helper lemmas for the region selection. -/

/-- Selection through a cons mask. -/
theorem maskSelect_cons (b : Bool) (mask : List Bool) (x : ℚ) (xs : List ℚ) :
    maskSelect (b :: mask) (x :: xs) =
      if b then x :: maskSelect mask xs else maskSelect mask xs := by
  cases b <;> simp [maskSelect, List.filter_cons]

/-- Selection by a pointwise mask over paired cells is the filter of
the zipped list. -/
theorem maskSelect_map (f : ℚ × ℚ → Bool) (ps : List (ℚ × ℚ)) (xs : List ℚ)
    (h : xs.length = ps.length) :
    maskSelect (ps.map f) xs =
      ((ps.zip xs).filter fun q => f q.1).map fun q => q.2 := by
  induction ps generalizing xs with
  | nil => cases xs with
      | nil => rfl
      | cons x xs => simp at h
  | cons p ps ih =>
      cases xs with
      | nil => simp at h
      | cons x xs =>
          rw [List.map_cons, maskSelect_cons, List.zip_cons_cons, List.filter_cons]
          have hx := ih xs (by simpa using h)
          cases hf : f p <;> simp [hf, hx]

/-- Projections of the filter of a doubly zipped list agree with the
filters of the individually zipped lists. -/
theorem filter_zip_pair (f : ℚ × ℚ → Bool) (ps : List (ℚ × ℚ))
    (xs ys : List ℚ) (hx : xs.length = ps.length) (hy : ys.length = ps.length) :
    ((((ps.zip (xs.zip ys)).filter fun q => f q.1).map fun q => q.2.1) =
      ((ps.zip xs).filter fun q => f q.1).map fun q => q.2) ∧
    ((((ps.zip (xs.zip ys)).filter fun q => f q.1).map fun q => q.2.2) =
      ((ps.zip ys).filter fun q => f q.1).map fun q => q.2) := by
  induction ps generalizing xs ys with
  | nil => simp
  | cons p ps ih =>
      cases xs with
      | nil => simp at hx
      | cons x xs =>
          cases ys with
          | nil => simp at hy
          | cons y ys =>
              have h := ih xs ys (by simpa using hx) (by simpa using hy)
              simp only [List.zip_cons_cons, List.filter_cons]
              cases hf : f p <;> simp [hf, h.1, h.2]

/-- C8: on same-shape inputs, both outputs of
`collect_region_wspdwdir` are obtained from the one filtered list of
cells whose `(lon, lat)` lies in the closed box: the i-th returned
speed and direction come from the same in-box cell, the two outputs
have equal length, and the speed-only variant selects by the same
mask. -/
theorem collect_region_shared_mask (lon lat wspd wdir : List ℚ) (coords : Box)
    (h1 : lat.length = lon.length) (h2 : wspd.length = lon.length)
    (h3 : wdir.length = lon.length) :
    (collect_region_wspdwdir lon lat wspd wdir coords).1 =
      (((lon.zip lat).zip (wspd.zip wdir)).filter fun q =>
        in_box coords q.1).map (fun q => q.2.1) ∧
    (collect_region_wspdwdir lon lat wspd wdir coords).2 =
      (((lon.zip lat).zip (wspd.zip wdir)).filter fun q =>
        in_box coords q.1).map (fun q => q.2.2) ∧
    (collect_region_wspdwdir lon lat wspd wdir coords).1.length =
      (collect_region_wspdwdir lon lat wspd wdir coords).2.length ∧
    collect_region_wspd lon lat wspd coords =
      (collect_region_wspdwdir lon lat wspd wdir coords).1 := by
  have hzip : (lon.zip lat).length = lon.length := by
    rw [List.length_zip, h1, Nat.min_self]
  have e1 : (collect_region_wspdwdir lon lat wspd wdir coords).1 =
      (((lon.zip lat).zip wspd).filter fun q => in_box coords q.1).map
        (fun q => q.2) := by
    show maskSelect (region_mask lon lat coords) wspd = _
    rw [region_mask, maskSelect_map _ _ _ (by rw [hzip, h2])]
  have e2 : (collect_region_wspdwdir lon lat wspd wdir coords).2 =
      (((lon.zip lat).zip wdir).filter fun q => in_box coords q.1).map
        (fun q => q.2) := by
    show maskSelect (region_mask lon lat coords) wdir = _
    rw [region_mask, maskSelect_map _ _ _ (by rw [hzip, h3])]
  have hpair := filter_zip_pair (in_box coords) (lon.zip lat) wspd wdir
    (by rw [hzip, h2]) (by rw [hzip, h3])
  refine ⟨?_, ?_, ?_, rfl⟩
  · rw [e1, hpair.1]
  · rw [e2, hpair.2]
  · rw [e1, e2, hpair.1.symm, hpair.2.symm]
    simp

/-- C8 witness: the shared-mask characterization at a concrete grid
with one in-box cell. -/
theorem collect_region_shared_mask_witness :
    (collect_region_wspdwdir [0, 5, 10] [0, 5, 10] [1, 2, 3] [4, 5, 6]
        ⟨1, 6, 1, 6⟩).1 =
      ((([0, 5, 10].zip [0, 5, 10]).zip ([1, 2, 3].zip [4, 5, 6])).filter fun q =>
        in_box ⟨1, 6, 1, 6⟩ q.1).map (fun q => q.2.1) ∧
    (collect_region_wspdwdir [0, 5, 10] [0, 5, 10] [1, 2, 3] [4, 5, 6]
        ⟨1, 6, 1, 6⟩).2 =
      ((([0, 5, 10].zip [0, 5, 10]).zip ([1, 2, 3].zip [4, 5, 6])).filter fun q =>
        in_box ⟨1, 6, 1, 6⟩ q.1).map (fun q => q.2.2) ∧
    (collect_region_wspdwdir [0, 5, 10] [0, 5, 10] [1, 2, 3] [4, 5, 6]
        ⟨1, 6, 1, 6⟩).1.length =
      (collect_region_wspdwdir [0, 5, 10] [0, 5, 10] [1, 2, 3] [4, 5, 6]
        ⟨1, 6, 1, 6⟩).2.length ∧
    collect_region_wspd [0, 5, 10] [0, 5, 10] [1, 2, 3] ⟨1, 6, 1, 6⟩ =
      (collect_region_wspdwdir [0, 5, 10] [0, 5, 10] [1, 2, 3] [4, 5, 6]
        ⟨1, 6, 1, 6⟩).1 :=
  collect_region_shared_mask [0, 5, 10] [0, 5, 10] [1, 2, 3] [4, 5, 6]
    ⟨1, 6, 1, 6⟩ (by decide) (by decide) (by decide)

/-! Helper lemma for the circular statistics: a Cauchy-Schwarz bound
on summed sines and cosines. -/

/-- The summed sine and cosine of any sample list satisfy
`S^2 + C^2 <= n^2`. -/
theorem sum_sin_sq_add_sum_cos_sq_le (l : List ℝ) :
    ((l.map fun d => Real.sin (d * (Real.pi / 180))).sum) ^ 2 +
      ((l.map fun d => Real.cos (d * (Real.pi / 180))).sum) ^ 2 ≤
      (l.length : ℝ) ^ 2 := by
  induction l with
  | nil => simp
  | cons x xs ih =>
      simp only [List.map_cons, List.sum_cons, List.length_cons]
      push_cast
      set s := (xs.map fun d => Real.sin (d * (Real.pi / 180))).sum
      set c := (xs.map fun d => Real.cos (d * (Real.pi / 180))).sum
      set n := (xs.length : ℝ) with hn
      have hn0 : (0:ℝ) ≤ n := by rw [hn]; positivity
      set sy := Real.sin (x * (Real.pi / 180))
      set cy := Real.cos (x * (Real.pi / 180))
      have hsc : sy ^ 2 + cy ^ 2 = 1 := Real.sin_sq_add_cos_sq _
      have hX2 : (sy * s + cy * c) ^ 2 ≤ s ^ 2 + c ^ 2 := by
        nlinarith [sq_nonneg (sy * c - cy * s)]
      have hXn : sy * s + cy * c ≤ n := by
        nlinarith [hX2, ih, sq_nonneg (sy * s + cy * c - n),
          sq_nonneg (sy * s + cy * c + n)]
      nlinarith [ih, hsc, hXn]

/-- C3 counterexample: the epsilon stage of `wind_direction_std` does
not clamp its radicand: on a radicand that is negative (as
floating-point drift can make `1 - sin_mean^2 - cos_mean^2`) the
source expression produces NaN where the clamped expression of the
spec produces 0. -/
theorem wds_eps_not_clamped :
    wds_eps 1 1 = none ∧ wds_eps_clamped 1 1 = some 0 := by
  constructor
  · rw [wds_eps, nsqrt, if_pos (by norm_num)]
  · rw [wds_eps_clamped, nsqrt, if_neg (by norm_num)]
    norm_num

/-- C3 amended: the source computes
`eps = sqrt(1 - sin_mean^2 - cos_mean^2)` with no clamping; in exact
arithmetic the radicand is nevertheless nonnegative for every sample
list with at least one non-NaN member, so `eps` lies in `[0, 1]`,
`arcsin(eps)` is defined, and `wind_direction_std` never returns NaN
on such inputs.  Only floating-point rounding, outside this model,
could make the unclamped radicand negative. -/
theorem wind_direction_std_never_nan (wdir : List ℝ) (h : wdir ≠ []) :
    ∃ sa ca eps,
      nanmean (wdir.map fun d => Real.sin (d * (Real.pi / 180))) = some sa ∧
      nanmean (wdir.map fun d => Real.cos (d * (Real.pi / 180))) = some ca ∧
      0 ≤ 1 - sa ^ 2 - ca ^ 2 ∧
      wds_eps sa ca = some eps ∧ 0 ≤ eps ∧ eps ≤ 1 ∧
      wind_direction_std wdir =
        some (Real.arcsin eps * (1 + 0.1547 * eps ^ 3)) := by
  have hlen : wdir.length ≠ 0 := by
    simpa [List.length_eq_zero] using h
  have hnpos : (0:ℝ) < (wdir.length : ℝ) := by
    have := Nat.pos_of_ne_zero hlen
    exact_mod_cast this
  set S := ((wdir.map fun d => Real.sin (d * (Real.pi / 180))).sum) with hS
  set C := ((wdir.map fun d => Real.cos (d * (Real.pi / 180))).sum) with hC
  have hsa : nanmean (wdir.map fun d => Real.sin (d * (Real.pi / 180))) =
      some (S / (wdir.length : ℝ)) := by
    rw [nanmean, if_neg (by simpa using hlen)]
    simp [hS]
  have hca : nanmean (wdir.map fun d => Real.cos (d * (Real.pi / 180))) =
      some (C / (wdir.length : ℝ)) := by
    rw [nanmean, if_neg (by simpa using hlen)]
    simp [hC]
  set sa := S / (wdir.length : ℝ) with hsa1
  set ca := C / (wdir.length : ℝ) with hca1
  have hkey : sa ^ 2 + ca ^ 2 ≤ 1 := by
    rw [hsa1, hca1, div_pow, div_pow, div_add_div_same, div_le_one (by positivity)]
    exact sum_sin_sq_add_sum_cos_sq_le wdir
  have hrad : 0 ≤ 1 - sa ^ 2 - ca ^ 2 := by linarith
  have hrad1 : 1 - sa ^ 2 - ca ^ 2 ≤ 1 := by
    nlinarith [sq_nonneg sa, sq_nonneg ca]
  set eps := Real.sqrt (1 - sa ^ 2 - ca ^ 2) with heps1
  have heps : wds_eps sa ca = some eps := by
    rw [wds_eps, nsqrt, if_neg (not_lt.mpr hrad)]
  have heps0 : 0 ≤ eps := Real.sqrt_nonneg _
  have hepsle : eps ≤ 1 := by
    rw [heps1]
    calc Real.sqrt (1 - sa ^ 2 - ca ^ 2) ≤ Real.sqrt 1 := Real.sqrt_le_sqrt hrad1
    _ = 1 := Real.sqrt_one
  have hasin : narcsin eps = some (Real.arcsin eps) := by
    rw [narcsin, if_neg]
    push_neg
    constructor
    · linarith
    · linarith
  refine ⟨sa, ca, eps, hsa, hca, hrad, heps, heps0, hepsle, ?_⟩
  rw [wind_direction_std, hsa, hca]
  simp only [heps, hasin]

/-- C3 witness: the amended statement at the one-sample list `[0]`. -/
theorem wind_direction_std_never_nan_witness :
    ∃ sa ca eps,
      nanmean ([(0:ℝ)].map fun d => Real.sin (d * (Real.pi / 180))) = some sa ∧
      nanmean ([(0:ℝ)].map fun d => Real.cos (d * (Real.pi / 180))) = some ca ∧
      0 ≤ 1 - sa ^ 2 - ca ^ 2 ∧
      wds_eps sa ca = some eps ∧ 0 ≤ eps ∧ eps ≤ 1 ∧
      wind_direction_std [(0:ℝ)] =
        some (Real.arcsin eps * (1 + 0.1547 * eps ^ 3)) :=
  wind_direction_std_never_nan [(0:ℝ)] (by simp)

/-- C7: converting a positive speed `s` and direction `d` to
components and back yields a direction congruent to `d` modulo 360
(exactly, in real arithmetic), and zero speed gives exactly the
components `(0, 0)`. -/
theorem wind_components_roundtrip (s d : ℝ) (hs : 0 < s) :
    (∃ k : ℤ, wind_direction_from_uv (wind_components s d).1
        (wind_components s d).2 = d + 360 * (k : ℝ)) ∧
    wind_components 0 d = (0, 0) := by
  constructor
  · have hcos : Real.cos (3 * Real.pi / 2 - d * Real.pi / 180) =
        -Real.sin (d * Real.pi / 180) := by
      rw [show 3 * Real.pi / 2 - d * Real.pi / 180 =
            Real.pi + (Real.pi / 2 - d * Real.pi / 180) by ring,
          Real.cos_add, Real.cos_pi, Real.sin_pi, Real.cos_pi_div_two_sub]
      ring
    have hsin : Real.sin (3 * Real.pi / 2 - d * Real.pi / 180) =
        -Real.cos (d * Real.pi / 180) := by
      rw [show 3 * Real.pi / 2 - d * Real.pi / 180 =
            Real.pi + (Real.pi / 2 - d * Real.pi / 180) by ring,
          Real.sin_add, Real.cos_pi, Real.sin_pi, Real.sin_pi_div_two_sub]
      ring
    have hz : (((wind_components s d).1 : ℝ) : ℂ) +
        (((wind_components s d).2 : ℝ) : ℂ) * Complex.I =
        (s : ℂ) * (Complex.cos ((3 * Real.pi / 2 - d * Real.pi / 180 : ℝ) : ℂ) +
          Complex.sin ((3 * Real.pi / 2 - d * Real.pi / 180 : ℝ) : ℂ) * Complex.I) := by
      rw [← Complex.ofReal_cos, ← Complex.ofReal_sin, hcos, hsin]
      simp only [wind_components]
      push_cast
      ring
    set n : ℤ := ⌊(Real.pi - (3 * Real.pi / 2 - d * Real.pi / 180)) /
      (2 * Real.pi)⌋ with hn
    have harg : arctan2 (wind_components s d).2 (wind_components s d).1 =
        (3 * Real.pi / 2 - d * Real.pi / 180) + 2 * Real.pi * (n : ℝ) := by
      rw [arctan2, hz]
      have hsub := Complex.arg_mul_cos_add_sin_mul_I_sub hs
        (3 * Real.pi / 2 - d * Real.pi / 180)
      rw [← hn] at hsub
      linarith
    have hπ : Real.pi ≠ 0 := Real.pi_ne_zero
    have hconv : ((3 * Real.pi / 2 - d * Real.pi / 180) + 2 * Real.pi * (n : ℝ)) *
        (180 / Real.pi) = 270 - d + 360 * (n : ℝ) := by
      field_simp
      ring
    simp only [wind_direction_from_uv]
    rw [harg, hconv]
    split_ifs with hcase
    · exact ⟨-n - 1, by push_cast; ring⟩
    · exact ⟨-n, by push_cast; ring⟩
  · simp [wind_components]

/-- C7 witness: the round trip at speed 1 and direction 0. -/
theorem wind_components_roundtrip_witness :
    (∃ k : ℤ, wind_direction_from_uv (wind_components 1 0).1
        (wind_components 1 0).2 = 0 + 360 * (k : ℝ)) ∧
    wind_components 0 0 = (0, 0) :=
  wind_components_roundtrip 1 0 one_pos

end EO4A
